import Mathlib

/-!
Shallow embedding of the binary-resolution and invocation subsystem of
`src/app/utils/duffle.ts`, together with the collaborator types it uses
(`Errorable`, `Shell`) and the command-builder helpers.

The repository ships only `duffle.ts` under `src/`; the collaborator modules
`shell.ts`, `pairs.ts` and `errorable.ts` are referenced but absent, so the
definitions taken from them are modelled from the spec and marked as such in
their doc comments.  Everything else is translated directly from
`src/app/utils/duffle.ts`.

Conventions of the embedding:
- JavaScript strings are Lean `String`; JS truthiness of a string is
  "non-empty".
- The module-level mutable cache `duffle` becomes an explicit
  `Option BinaryInfo` value threaded through the resolver.
- Every invocation of the process-execution collaborator is recorded in a
  trace (`List String` of command lines), so that "the collaborator is never
  invoked" becomes "the trace is empty".
- `console.log` calls are a diagnostic side channel with no functional
  effect and are not modelled.
-/

namespace DuffleBag

/-- JavaScript `trim` on a character list: drop leading and trailing
whitespace.  Used to embed `String.prototype.trim()` structurally so the
kernel can evaluate it. -/
def jsTrimList (cs : List Char) : List Char :=
  ((cs.dropWhile Char.isWhitespace).reverse.dropWhile Char.isWhitespace).reverse

/-- Embedding of `s.trim()` from JavaScript. -/
def trimStr (s : String) : String :=
  ⟨jsTrimList s.data⟩

/-- JavaScript `s.split('\n')` on a character list: split at every newline,
keeping empty segments (so a trailing newline yields a trailing empty
segment, as in JS). -/
def splitNL : List Char → List (List Char)
  | [] => [[]]
  | c :: rest =>
    if c = '\n' then [] :: splitNL rest
    else
      match splitNL rest with
      | [] => [[c]]
      | w :: ws => (c :: w) :: ws

/-- Embedding of `s.split('\n')` from JavaScript, producing strings. -/
def splitNLStr (s : String) : List String :=
  (splitNL s.data).map (fun cs => ⟨cs⟩)

/-- From `errorable.ts` (declared out of scope by the spec as the generic
success/failure wrapper): success carries a typed payload, failure carries a
list of human-readable messages. -/
inductive Errorable (T : Type) where
  | ok (result : T)
  | error (messages : List String)
deriving DecidableEq

/-- `succeeded` from `errorable.ts`: whether the outcome is a success. -/
def succeeded {T : Type} : Errorable T → Bool
  | .ok _ => true
  | .error _ => false

/-- Result of running an external process: exit code, stdout, stderr.
Modelled from the spec: the process collaborator contract is
`execute(commandLine, options) -> (exitCode, stdout, stderr) | raised-failure`
(shell.ts is not under src/). -/
structure ExecResult where
  code : Int
  stdout : String
  stderr : String
deriving DecidableEq

/-- Modelled from the spec: `shell.Platform` (shell.ts is not under src/).
The source's `switch` over the platform has a `default` arm, so the type has
a value besides the three supported operating systems. -/
inductive Platform where
  | windows
  | linux
  | macOS
  | unsupported
deriving DecidableEq

/-- Modelled from the spec: the `Shell` collaborator (shell.ts is not under
src/).  `exec` is the process-execution primitive returning exit code,
stdout and stderr, or a raised failure as an `Errorable.error`; `platform`
is the host platform; `resourcesPath` models the host application's
resource-bundle root (`process.resourcesPath`), absent when running outside
a packaged context. -/
structure Shell where
  exec : String → Errorable ExecResult
  platform : Platform
  resourcesPath : Option String

/-- Characters that pass through shell escaping unchanged: alphanumerics and
a few plain punctuation characters.  None of them is a shell metacharacter. -/
def isPlainChar (c : Char) : Bool :=
  c.isAlphanum || c = '-' || c = '_' || c = '.' || c = '/' || c = '=' || c = ':'

/-- POSIX single-quote escaping of one character: a single quote becomes
close-quote, backslash-escaped quote, reopen-quote; everything else is
literal inside single quotes. -/
def sqEscChar (c : Char) : List Char :=
  if c = '\'' then ['\'', '\\', '\'', '\''] else [c]

/-- Single-quote escaping of a character list. -/
def sqEscList : List Char → List Char
  | [] => []
  | c :: cs => sqEscChar c ++ sqEscList cs

/-- Modelled from the spec: `shell.safeValue` (shell.ts is not under src/).
The spec requires that the rendered value "cannot be interpreted as
additional shell tokens or injected commands (quote/escape per the target
shell's rules)", while its own worked example renders the plain value `1`
unquoted (`--set x=1`).  So: a non-empty value made only of plain characters
passes through unchanged, and anything else is single-quoted with embedded
quotes escaped. -/
def safeValue (v : String) : String :=
  if !v.data.isEmpty && v.data.all isPlainChar then v
  else ⟨'\'' :: (sqEscList v.data ++ ['\''])⟩

/-- A key/value pair as produced by `pairs.fromStringMap`. -/
structure Pair where
  key : String
  value : String
deriving DecidableEq

/-- Modelled from the spec: `pairs.fromStringMap` (pairs.ts is not under
src/).  A parameter mapping is a finite map from name to value with unique
keys; its entries are already materialised here as an ordered list of pairs,
so the conversion is the identity. -/
def fromStringMap (parameters : List Pair) : List Pair :=
  parameters

/-- `paramsArgs` from duffle.ts: filter out falsy (empty) values, render each
remaining entry as `--set key=escaped-value`, and join with single spaces. -/
def paramsArgs (parameters : List Pair) : String :=
  String.intercalate " "
    (((fromStringMap parameters).filter (fun p => !p.value.isEmpty)).map
      (fun p => "--set " ++ p.key ++ "=" ++ safeValue p.value))

/-- `credentialArg` from duffle.ts: emit `-c name` when the reference is
truthy (present and non-empty), nothing otherwise. -/
def credentialArg (credentialSet : Option String) : String :=
  match credentialSet with
  | some s => if !s.isEmpty then "-c " ++ s else ""
  | none => ""

/-- The argument string rendered by `installBundle` in duffle.ts:
`${name} ${bundleName} ${paramsArgs(params)} ${credentialArg(credentialSet)}`.
Parameters appear in the source's order: bundle name first, then the
installation name. -/
def installBundleArgs (bundleName name : String) (params : List Pair)
    (credentialSet : Option String) : String :=
  name ++ " " ++ bundleName ++ " " ++ paramsArgs params ++ " "
    ++ credentialArg credentialSet

/-- The discovered binary: path and version string, from duffle.ts. -/
structure BinaryInfo where
  path : String
  version : String
deriving DecidableEq

/-- Embedding of `path.join(root, rel)`.  The claims never depend on the
normalisation `path.join` performs, only on whether a joined path exists at
all, so joining is plain concatenation with a separator. -/
def pathJoin (root rel : String) : String :=
  root ++ "/" ++ rel

/-- `duffleResourcePath` from duffle.ts: the platform-specific relative
path of the bundled binary, or nothing on an unsupported platform. -/
def duffleResourcePath (platform : Platform) : Option String :=
  match platform with
  | .windows => some "dufflebin/win32/duffle.exe"
  | .linux => some "dufflebin/linux/duffle"
  | .macOS => some "dufflebin/darwin/duffle"
  | .unsupported => none

/-- The bundled-binary fallback of `findDuffleBinaryCore` (duffle.ts lines
127-142): compute the platform resource path, require a resource-bundle
root, probe the joined binary with `version`, and accept exit code 0.
Returns the outcome plus the trace of collaborator invocations made by the
fallback. -/
def bundledFallback (sh : Shell) : Option BinaryInfo × List String :=
  match duffleResourcePath sh.platform with
  | none => (none, [])
  | some resourcePath =>
    match sh.resourcesPath with
    | none => (none, [])
    | some root =>
      let binPath := pathJoin root resourcePath
      let cmd := binPath ++ " version"
      match sh.exec cmd with
      | .ok srr =>
        if srr.code = 0 then (some ⟨binPath, trimStr srr.stdout⟩, [cmd])
        else (none, [cmd])
      | .error _ => (none, [cmd])

/-- `findDuffleBinaryCore` from duffle.ts: probe the system-installed tool
with `duffle version`; on exit code 0 take the bare name and trimmed stdout,
otherwise fall back to the bundled binary.  Returns the outcome plus the
trace of collaborator invocations. -/
def findDuffleBinaryCore (sh : Shell) : Option BinaryInfo × List String :=
  match sh.exec "duffle version" with
  | .ok sr =>
    if sr.code = 0 then (some ⟨"duffle", trimStr sr.stdout⟩, ["duffle version"])
    else
      let fb := bundledFallback sh
      (fb.1, "duffle version" :: fb.2)
  | .error _ =>
    let fb := bundledFallback sh
    (fb.1, "duffle version" :: fb.2)

/-- `findDuffleBinary` from duffle.ts with the module-level cache made
explicit: `if (!duffle) duffle = await findDuffleBinaryCore(sh); return
duffle`.  Input `cache` is the cache before the call; the result is
(returned value, cache after the call, trace of collaborator invocations).
Note the assignment runs whenever the cache is unset, so a failed
resolution leaves the cache unset. -/
def findDuffleBinary (sh : Shell) (cache : Option BinaryInfo) :
    Option BinaryInfo × Option BinaryInfo × List String :=
  match cache with
  | some b => (some b, some b, [])
  | none =>
    let r := findDuffleBinaryCore sh
    (r.1, r.1, r.2)

/-- The user-facing message returned when no binary can be found
(duffle.ts line 15). -/
def cantFindMsg : String :=
  "Can't find Duffle on this machine. Install it on your system PATH and restart the installer."

/-- Modelled from the spec: `shell.execObj` (shell.ts is not under src/).
Per the spec's facade contract: execute the command line via the process
collaborator; on exit code 0 apply the caller's parser to stdout and wrap
as success; a non-zero exit or a process-start failure is surfaced as a
failure carrying the collaborator's detail. -/
def execObj {T : Type} (sh : Shell) (cmd : String) (fn : String → T) :
    Errorable T :=
  match sh.exec cmd with
  | .ok r =>
    if r.code = 0 then .ok (fn r.stdout)
    else .error [r.stderr]
  | .error messages => .error messages

/-- `invokeObj` from duffle.ts with cache and collaborator trace explicit:
resolve the binary; if unavailable, fail with `cantFindMsg` without
executing anything further; otherwise build
`<binary path> <command> <args>` and run it through `execObj`.  The result
is (operation outcome, cache after the call, trace of every collaborator
invocation made during the call — resolver probes first, then the real
command when one is executed). -/
def invokeObj {T : Type} (sh : Shell) (command args : String)
    (cache : Option BinaryInfo) (fn : String → T) :
    Errorable T × Option BinaryInfo × List String :=
  match findDuffleBinary sh cache with
  | (none, cache2, tr) => (.error [cantFindMsg], cache2, tr)
  | (some bin, cache2, tr) =>
    let cmd := bin.path ++ " " ++ command ++ " " ++ args
    (execObj sh cmd fn, cache2, tr ++ [cmd])

/-- The local `parse` function of `list` in duffle.ts: split stdout on
newlines, trim each line, keep non-empty lines. -/
def listParse (stdout : String) : List String :=
  ((splitNLStr stdout).map trimStr).filter (fun l => 0 < l.length)

/-- The local `parse` function of `listCredentialSets` in duffle.ts,
textually identical to the one in `list`. -/
def credentialSetsListParse (stdout : String) : List String :=
  ((splitNLStr stdout).map trimStr).filter (fun l => 0 < l.length)

/-- `list` from duffle.ts: `duffle list`, parsed as a trimmed line list. -/
def list (sh : Shell) (cache : Option BinaryInfo) :
    Errorable (List String) × Option BinaryInfo × List String :=
  invokeObj sh "list" "" cache listParse

/-- `listCredentialSets` from duffle.ts: `duffle credentials list`, parsed
as a trimmed line list. -/
def listCredentialSets (sh : Shell) (cache : Option BinaryInfo) :
    Errorable (List String) × Option BinaryInfo × List String :=
  invokeObj sh "credentials list" "" cache credentialSetsListParse

/-- `installBundle` from duffle.ts: `duffle install` with the rendered
argument string, discarding stdout. -/
def installBundle (sh : Shell) (bundleName name : String) (params : List Pair)
    (credentialSet : Option String) (cache : Option BinaryInfo) :
    Errorable Unit × Option BinaryInfo × List String :=
  invokeObj sh "install" (installBundleArgs bundleName name params credentialSet)
    cache (fun _ => ())

/-! ### A model of the target shell's word splitting

The spec's escaping contract is stated against "the target shell's rules":
a rendered token, read back by the shell, must come out as a single word
equal to the original value, with no token splitting, command injection or
expansion.  The model below is a POSIX-style reader: whitespace separates
words; single quotes are literal runs; double quotes allow the usual
backslash escapes; an unquoted backslash escapes the next character; an
unquoted (or double-quoted) occurrence of an expansion or control
metacharacter — `$`, backtick, `;`, `&`, `|`, redirections, parentheses,
globs — is exactly what escaping must prevent, so the reader rejects the
input there (`none`). -/

/-- Shell metacharacters that trigger expansion, control flow or globbing
when unquoted. -/
def isShellSpecial (c : Char) : Bool :=
  c = '$' || c = '`' || c = ';' || c = '&' || c = '|' || c = '<' || c = '>'
    || c = '(' || c = ')' || c = '*' || c = '?' || c = '[' || c = '\n'

/-- Reader mode: outside quotes, inside single quotes, inside double quotes,
or just after a backslash (outside quotes / inside double quotes). -/
inductive SMode where
  | norm
  | single
  | double
  | escNorm
  | escDouble
deriving DecidableEq

/-- One-character-at-a-time shell word reader.  Arguments: remaining input,
mode, characters of the current word so far, and whether a current word has
started (so `''` produces an empty word).  Returns the words, or `none` when
the input is rejected (unterminated quote, trailing backslash, or a
metacharacter in a position where the shell would expand or split it). -/
def shellWordsAux : List Char → SMode → List Char → Bool → Option (List String)
  | [], .norm, cur, started => some (if started then [⟨cur⟩] else [])
  | [], _, _, _ => none
  | c :: rest, .norm, cur, started =>
    if c = ' ' || c = '\t' then
      (shellWordsAux rest .norm [] false).map
        (fun ws => if started then (⟨cur⟩ : String) :: ws else ws)
    else if c = '\'' then shellWordsAux rest .single cur true
    else if c = '"' then shellWordsAux rest .double cur true
    else if c = '\\' then shellWordsAux rest .escNorm cur started
    else if isShellSpecial c then none
    else shellWordsAux rest .norm (cur ++ [c]) true
  | c :: rest, .escNorm, cur, _ => shellWordsAux rest .norm (cur ++ [c]) true
  | c :: rest, .single, cur, _ =>
    if c = '\'' then shellWordsAux rest .norm cur true
    else shellWordsAux rest .single (cur ++ [c]) true
  | c :: rest, .double, cur, _ =>
    if c = '"' then shellWordsAux rest .norm cur true
    else if c = '\\' then shellWordsAux rest .escDouble cur true
    else if c = '$' || c = '`' then none
    else shellWordsAux rest .double (cur ++ [c]) true
  | c :: rest, .escDouble, cur, _ =>
    if c = '"' || c = '\\' || c = '$' || c = '`' then
      shellWordsAux rest .double (cur ++ [c]) true
    else shellWordsAux rest .double (cur ++ ['\\', c]) true

/-- Split a string into shell words, rejecting inputs the shell would
expand, split further, or treat as control operators. -/
def shellWords (s : String) : Option (List String) :=
  shellWordsAux s.data .norm [] false

/-- A shell whose every exec attempt is a raised process-start failure and
which exposes no resource-bundle root: both probes of the resolver fail. -/
def failSh : Shell :=
  { exec := fun _ => .error ["ENOENT"], platform := .linux, resourcesPath := none }

/-- A shell whose every exec attempt exits 0 with stdout `"v1.2.3\n"`: the
system probe succeeds immediately. -/
def okSh : Shell :=
  { exec := fun _ => .ok ⟨0, "v1.2.3\n", ""⟩, platform := .linux,
    resourcesPath := none }

/-- A shell on an unsupported platform whose probes all fail, with a
resource-bundle root configured. -/
def unsupSh : Shell :=
  { exec := fun _ => .error ["ENOENT"], platform := .unsupported,
    resourcesPath := some "/resources" }

/-- Helper: a pair with a non-empty value passes the `paramsArgs` filter. -/
theorem filterPred_of_ne (p : Pair) (h : p.value ≠ "") :
    (!p.value.isEmpty) = true := by
  cases hE : p.value.isEmpty
  · rfl
  · exact absurd ((String.isEmpty_iff p.value).mp hE) h

/-- Helper: a pair with an empty value fails the `paramsArgs` filter. -/
theorem filterPred_of_empty (p : Pair) (h : p.value = "") :
    (!p.value.isEmpty) = false := by
  simp [String.isEmpty_iff, h]

/-- C6: every empty-valued entry of the parameter mapping is omitted
entirely from the rendered argument string, and the remaining entries are
each rendered as `--set key=escaped-value` and space-joined in iteration
order. -/
theorem claim_C6 :
    (∀ (xs : List Pair) (p : Pair) (ys : List Pair), p.value = "" →
      paramsArgs (xs ++ p :: ys) = paramsArgs (xs ++ ys)) ∧
    (∀ ps : List Pair, (∀ p ∈ ps, p.value ≠ "") →
      paramsArgs ps = String.intercalate " "
        (ps.map (fun p => "--set " ++ p.key ++ "=" ++ safeValue p.value))) := by
  constructor
  · intro xs p ys h
    simp [paramsArgs, fromStringMap, List.filter_append, List.filter_cons,
      filterPred_of_empty p h]
  · intro ps h
    have : ps.filter (fun p => !p.value.isEmpty) = ps :=
      List.filter_eq_self.mpr (fun p hp => filterPred_of_ne p (h p hp))
    simp [paramsArgs, fromStringMap, this]

/-- Witness for C6 at a concrete mapping: the empty-valued entry `y` is
dropped. -/
theorem claim_C6_witness :
    paramsArgs [⟨"a", "1"⟩, ⟨"y", ""⟩] = paramsArgs [⟨"a", "1"⟩] :=
  claim_C6.1 [⟨"a", "1"⟩] ⟨"y", ""⟩ [] rfl

/-- C7: an absent credential-set reference renders no `-c` flag (the
credential argument is empty), and the reference `"myset"` renders exactly
`-c myset`. -/
theorem claim_C7 :
    credentialArg none = "" ∧ credentialArg (some "myset") = "-c myset" := by
  constructor
  · rfl
  · decide

/-- C10: a present-but-empty credential-set reference is treated exactly
like an absent one — the rendered credential argument is empty, so no `-c`
flag is emitted. -/
theorem claim_C10 :
    credentialArg (some "") = credentialArg none ∧ credentialArg (some "") = "" := by
  constructor <;> decide

/-- C8: the list-output parser of the package list operation and the one of
the credential-set list operation agree on every input, and on stdout
`"a\n  b  \n\nc\n"` they produce `["a", "b", "c"]` — split on newlines, trim
each line, drop empties, order preserved. -/
theorem claim_C8 :
    (∀ s : String, listParse s = credentialSetsListParse s) ∧
    listParse "a\n  b  \n\nc\n" = ["a", "b", "c"] :=
  ⟨fun _ => rfl, by decide⟩

/-- C2 counterexample: `installBundle` renders
`<installation name> <bundle name> <params> <credential>`, so with bundle
name `"foo"`, parameters `x=1, y=""` and credential set `"creds"` the
rendered argument string is never the claimed `foo --set x=1 -c creds` —
neither when the installation name is `"foo"` as well, nor when it is
empty. -/
theorem claim_C2_counterexample :
    installBundleArgs "foo" "foo" [⟨"x", "1"⟩, ⟨"y", ""⟩] (some "creds")
        ≠ "foo --set x=1 -c creds" ∧
    installBundleArgs "foo" "" [⟨"x", "1"⟩, ⟨"y", ""⟩] (some "creds")
        ≠ "foo --set x=1 -c creds" := by
  constructor <;> decide

/-- C2 amended: the install operation renders the installation name first
and then the bundle name; with installation name `"foo"`, bundle name
`"mybundle"`, parameters `{x: "1", y: ""}` and credential set `"creds"` it
renders `foo mybundle --set x=1 -c creds`, the empty-valued `y` entry
dropped. -/
theorem claim_C2_amended :
    installBundleArgs "mybundle" "foo" [⟨"x", "1"⟩, ⟨"y", ""⟩] (some "creds")
      = "foo mybundle --set x=1 -c creds" := by
  decide

/-- Helper: when the system probe exits 0, the resolver core succeeds with
the bare name and trimmed stdout, after one collaborator invocation. -/
theorem core_of_probe_ok (sh : Shell) (out err : String)
    (h : sh.exec "duffle version" = .ok ⟨0, out, err⟩) :
    findDuffleBinaryCore sh = (some ⟨"duffle", trimStr out⟩, ["duffle version"]) := by
  unfold findDuffleBinaryCore
  rw [h]
  rfl

/-- Helper: with no resource-bundle root configured, the bundled fallback
fails without invoking the collaborator. -/
theorem bundledFallback_no_root (sh : Shell) (h : sh.resourcesPath = none) :
    bundledFallback sh = (none, []) := by
  unfold bundledFallback
  cases hP : duffleResourcePath sh.platform <;> simp [h]

/-- Helper: when the system probe fails (nonzero exit or start failure) and
the fallback yields nothing with no invocations, the resolver core fails
after exactly the one probe invocation. -/
theorem core_of_probe_fail (sh : Shell)
    (hfail : ∀ r, sh.exec "duffle version" = .ok r → ¬r.code = 0)
    (hfb : bundledFallback sh = (none, [])) :
    findDuffleBinaryCore sh = (none, ["duffle version"]) := by
  unfold findDuffleBinaryCore
  cases hE : sh.exec "duffle version" with
  | ok r => simp [hfail r hE, hfb]
  | error msgs => simp [hfb]

/-- C4 -/
theorem claim_C4 (sh : Shell) (serr : String)
    (h : sh.exec "duffle version" = .ok ⟨0, "v1.2.3\n", serr⟩) :
    findDuffleBinary sh none
      = (some ⟨"duffle", "v1.2.3"⟩, some ⟨"duffle", "v1.2.3"⟩, ["duffle version"]) ∧
    findDuffleBinary sh (some ⟨"duffle", "v1.2.3"⟩)
      = (some ⟨"duffle", "v1.2.3"⟩, some ⟨"duffle", "v1.2.3"⟩, []) := by
  constructor
  · have hc := core_of_probe_ok sh "v1.2.3\n" serr h
    have h1 : findDuffleBinary sh none
        = ((findDuffleBinaryCore sh).1, (findDuffleBinaryCore sh).1,
           (findDuffleBinaryCore sh).2) := rfl
    rw [h1, hc]
    decide
  · rfl

theorem claim_C4_witness :
    findDuffleBinary okSh none
      = (some ⟨"duffle", "v1.2.3"⟩, some ⟨"duffle", "v1.2.3"⟩, ["duffle version"]) ∧
    findDuffleBinary okSh (some ⟨"duffle", "v1.2.3"⟩)
      = (some ⟨"duffle", "v1.2.3"⟩, some ⟨"duffle", "v1.2.3"⟩, []) :=
  claim_C4 okSh "" rfl

/-- C9 -/
theorem claim_C9 (sh : Shell)
    (hplat : sh.platform ≠ .windows ∧ sh.platform ≠ .linux ∧ sh.platform ≠ .macOS)
    (hfail : ∀ r, sh.exec "duffle version" = .ok r → ¬r.code = 0) :
    duffleResourcePath sh.platform = none ∧
    findDuffleBinaryCore sh = (none, ["duffle version"]) := by
  have hrp : duffleResourcePath sh.platform = none := by
    cases hp : sh.platform
    · exact absurd hp hplat.1
    · exact absurd hp hplat.2.1
    · exact absurd hp hplat.2.2
    · rfl
  have hfb : bundledFallback sh = (none, []) := by
    unfold bundledFallback
    rw [hrp]
  exact ⟨hrp, core_of_probe_fail sh hfail hfb⟩

theorem claim_C9_witness :
    duffleResourcePath unsupSh.platform = none ∧
    findDuffleBinaryCore unsupSh = (none, ["duffle version"]) :=
  claim_C9 unsupSh (by decide) (fun r h => by simp [unsupSh] at h)

/-- C5 -/
theorem claim_C5 {T : Type} (sh : Shell) (cache : Option BinaryInfo)
    (command args : String) (fn : String → T)
    (h : (findDuffleBinary sh cache).1 = none) :
    invokeObj sh command args cache fn
      = (.error [cantFindMsg], (findDuffleBinary sh cache).2.1,
         (findDuffleBinary sh cache).2.2) := by
  have h1 : findDuffleBinary sh cache
      = (none, (findDuffleBinary sh cache).2.1, (findDuffleBinary sh cache).2.2) := by
    rw [← h]
  unfold invokeObj
  rw [h1]

theorem claim_C5_witness :
    invokeObj failSh "list" "" none listParse
      = (.error [cantFindMsg], none, ["duffle version"]) :=
  claim_C5 failSh none "list" "" listParse rfl

/-- C1 counterexample -/
theorem claim_C1_counterexample :
    (findDuffleBinary failSh none).1 = none ∧
    (findDuffleBinary failSh ((findDuffleBinary failSh none).2.1)).2.2
        = ["duffle version"] ∧
    (["duffle version"] : List String) ≠ [] := by
  refine ⟨rfl, rfl, by decide⟩

/-- C1 amended -/
theorem claim_C1_amended {T : Type} (sh : Shell) (fn : String → T)
    (hfail : ∀ r, sh.exec "duffle version" = .ok r → ¬r.code = 0)
    (hres : sh.resourcesPath = none) :
    findDuffleBinary sh none = (none, none, ["duffle version"]) ∧
    (∀ command args : String,
      invokeObj sh command args none fn
        = (.error [cantFindMsg], none, ["duffle version"])) := by
  have hcore := core_of_probe_fail sh hfail (bundledFallback_no_root sh hres)
  have hf : findDuffleBinary sh none = (none, none, ["duffle version"]) := by
    have h1 : findDuffleBinary sh none
        = ((findDuffleBinaryCore sh).1, (findDuffleBinaryCore sh).1,
           (findDuffleBinaryCore sh).2) := rfl
    rw [h1, hcore]
  refine ⟨hf, fun command args => ?_⟩
  unfold invokeObj
  rw [hf]

theorem claim_C1_witness :
    findDuffleBinary failSh none = (none, none, ["duffle version"]) ∧
    invokeObj failSh "install" "x" none trimStr
      = (.error [cantFindMsg], none, ["duffle version"]) := by
  have h := claim_C1_amended failSh trimStr (fun r hr => by simp [failSh] at hr) rfl
  exact ⟨h.1, h.2 "install" "x"⟩

/-- Helper: a plain character is none of the shell's special characters. -/
theorem isPlainChar_not_special (c : Char) (h : isPlainChar c = true) :
    isShellSpecial c = false := by
  cases hE : isShellSpecial c
  · rfl
  · exfalso
    simp only [isShellSpecial, Bool.or_eq_true, decide_eq_true_eq] at hE
    have hlist : c = '$' ∨ c = '`' ∨ c = ';' ∨ c = '&' ∨ c = '|' ∨ c = '<'
        ∨ c = '>' ∨ c = '(' ∨ c = ')' ∨ c = '*' ∨ c = '?' ∨ c = '['
        ∨ c = '\n' := by tauto
    rcases hlist with h1|h1|h1|h1|h1|h1|h1|h1|h1|h1|h1|h1|h1 <;> subst h1 <;>
      exact absurd h (by decide)

/-- Helper: in normal mode the reader consumes a plain character into the
current word. -/
theorem shellWordsAux_plain_cons (c : Char) (hc : isPlainChar c = true)
    (rest cur : List Char) (st : Bool) :
    shellWordsAux (c :: rest) .norm cur st
      = shellWordsAux rest .norm (cur ++ [c]) true := by
  have h1 : c ≠ ' ' := fun h => absurd hc (by subst h; decide)
  have h2 : c ≠ '\t' := fun h => absurd hc (by subst h; decide)
  have h3 : c ≠ '\'' := fun h => absurd hc (by subst h; decide)
  have h4 : c ≠ '"' := fun h => absurd hc (by subst h; decide)
  have h5 : c ≠ '\\' := fun h => absurd hc (by subst h; decide)
  have h6 := isPlainChar_not_special c hc
  simp [shellWordsAux, h1, h2, h3, h4, h5, h6]

/-- Helper: in normal mode the reader consumes a run of plain characters
into the current word. -/
theorem shellWordsAux_plain_append (cs : List Char)
    (h : ∀ c ∈ cs, isPlainChar c = true) (rest cur : List Char) (st : Bool) :
    shellWordsAux (cs ++ rest) .norm cur st
      = shellWordsAux rest .norm (cur ++ cs) (st || !cs.isEmpty) := by
  induction cs generalizing cur st with
  | nil => simp
  | cons c cs ih =>
    rw [List.cons_append, shellWordsAux_plain_cons c (h c (by simp)) _ cur st]
    rw [ih (fun d hd => h d (by simp [hd])) (cur ++ [c]) true]
    simp [List.append_assoc]

/-- Helper: inside single quotes, the reader turns the escaped form of a
character run back into the run itself. -/
theorem shellWordsAux_sqEsc (cs : List Char) (rest cur : List Char) :
    shellWordsAux (sqEscList cs ++ rest) .single cur true
      = shellWordsAux rest .single (cur ++ cs) true := by
  induction cs generalizing cur with
  | nil => simp [sqEscList]
  | cons c cs ih =>
    by_cases hq : c = '\''
    · subst hq
      have h1 : sqEscList ('\'' :: cs) ++ rest
          = '\'' :: '\\' :: '\'' :: '\'' :: (sqEscList cs ++ rest) := by
        simp [sqEscList, sqEscChar]
      rw [h1]
      have h2 : shellWordsAux
            ('\'' :: '\\' :: '\'' :: '\'' :: (sqEscList cs ++ rest)) .single cur true
          = shellWordsAux (sqEscList cs ++ rest) .single (cur ++ ['\'']) true := rfl
      rw [h2, ih]
      simp
    · have h1 : sqEscList (c :: cs) ++ rest = c :: (sqEscList cs ++ rest) := by
        simp [sqEscList, sqEscChar, hq]
      rw [h1]
      have h2 : shellWordsAux (c :: (sqEscList cs ++ rest)) .single cur true
          = shellWordsAux (sqEscList cs ++ rest) .single (cur ++ [c]) true := by
        simp [shellWordsAux, hq]
      rw [h2, ih]
      simp

/-- Helper: a value containing a shell metacharacter takes the quoted
branch of `safeValue`. -/
theorem safeValue_of_meta (v : String)
    (hmeta : ∃ c ∈ v.data, c = ' ' ∨ c = '\'' ∨ c = '"' ∨ c = ';' ∨ c = '$') :
    safeValue v = ⟨'\'' :: (sqEscList v.data ++ ['\''])⟩ := by
  obtain ⟨c, hcv, hc⟩ := hmeta
  have hcp : isPlainChar c = false := by
    rcases hc with h|h|h|h|h <;> subst h <;> decide
  have hall : v.data.all isPlainChar = false := by
    cases hA : v.data.all isPlainChar
    · rfl
    · exact absurd (List.all_eq_true.mp hA c hcv) (by simp [hcp])
  unfold safeValue
  rw [hall]
  simp

/-- C3 -/
theorem claim_C3 (key v : String)
    (hkey : ∀ c ∈ key.data, isPlainChar c = true)
    (hmeta : ∃ c ∈ v.data, c = ' ' ∨ c = '\'' ∨ c = '"' ∨ c = ';' ∨ c = '$') :
    shellWords (key ++ "=" ++ safeValue v) = some [key ++ "=" ++ v] := by
  rw [safeValue_of_meta v hmeta]
  show shellWordsAux
      ((key.data ++ ['=']) ++ ('\'' :: (sqEscList v.data ++ ['\'']))) .norm [] false
    = some [key ++ "=" ++ v]
  have hplain : ∀ c ∈ key.data ++ ['='], isPlainChar c = true := by
    intro c hcm
    rcases List.mem_append.mp hcm with h|h
    · exact hkey c h
    · simp at h; subst h; decide
  rw [shellWordsAux_plain_append (key.data ++ ['=']) hplain _ [] false]
  have hne : (key.data ++ ['=']).isEmpty = false := by
    cases key.data <;> rfl
  rw [hne]
  show shellWordsAux (sqEscList v.data ++ ['\'']) .single (key.data ++ ['=']) true
    = some [key ++ "=" ++ v]
  rw [shellWordsAux_sqEsc]
  rfl

/-- C3 witness -/
theorem claim_C3_witness :
    shellWords ("x" ++ "=" ++ safeValue "a b; $HOME")
      = some [("x" : String) ++ "=" ++ "a b; $HOME"] :=
  claim_C3 "x" "a b; $HOME" (by decide) (by decide)

end DuffleBag
